import Mathlib

/-
  Verification of the fast-floats crate (src/src/lib.rs).

  The crate wraps a floating-point value in `Fast<F>` and implements the five
  binary operators through the compiler's relaxed ("fast-math") intrinsics
  fadd_fast, fsub_fast, fmul_fast, fdiv_fast, frem_fast, plus a family of
  elementary functions built on the ordinary math intrinsics.

  The floating-point primitives themselves are not part of the repository:
  they are compiler intrinsics.  We therefore embed the crate's code over an
  abstract `Model` bundling those primitives, and state the intrinsics'
  contract (from the specification: a relaxed operation on finite, non-NaN
  operands returns the result of the corresponding ordinary operation; on
  other operands its value is unspecified) as the `ModelSpec` predicate.
  Theorems quantify over every model satisfying that contract, so they hold
  for both precision instantiations (f32 and f64) of the crate.  Two concrete
  executable models over a toy carrier `TF` serve to discharge hypotheses on
  concrete inputs: `Mgood`, where the relaxed ops agree with the ordinary ones
  everywhere, and `Mbad`, a conforming model whose relaxed ops return junk as
  soon as one operand is not finite.
-/

/-- Toy carrier used to instantiate the abstract model on concrete inputs:
integers together with the special floating-point values. -/
inductive TF where
  | num (n : Int)
  | negZero
  | nan
  | posInf
  | negInf
deriving DecidableEq

/-- Numeric value of a finite toy float (0 for the specials). -/
def TF.val : TF → Int
  | .num n => n
  | _ => 0

/-- Sign bit of a toy float. -/
def TF.isSignNeg : TF → Bool
  | .num n => decide (n < 0)
  | .negZero => true
  | .negInf => true
  | _ => false

/-- Finiteness predicate of the toy carrier (NaN and infinities excluded). -/
def TF.isFinite : TF → Bool
  | .num _ => true
  | .negZero => true
  | _ => false

/-- NaN predicate of the toy carrier. -/
def TF.isNaN : TF → Bool
  | .nan => true
  | _ => false

/-- Ordinary addition on the toy carrier. -/
def TF.add : TF → TF → TF
  | .nan, _ => .nan
  | _, .nan => .nan
  | .posInf, .negInf => .nan
  | .negInf, .posInf => .nan
  | .posInf, _ => .posInf
  | _, .posInf => .posInf
  | .negInf, _ => .negInf
  | _, .negInf => .negInf
  | .negZero, .negZero => .negZero
  | a, b => .num (a.val + b.val)

/-- Ordinary subtraction on the toy carrier. -/
def TF.sub : TF → TF → TF
  | .nan, _ => .nan
  | _, .nan => .nan
  | .posInf, .posInf => .nan
  | .negInf, .negInf => .nan
  | .posInf, _ => .posInf
  | .negInf, _ => .negInf
  | _, .posInf => .negInf
  | _, .negInf => .posInf
  | a, b => .num (a.val - b.val)

/-- Ordinary multiplication on the toy carrier. -/
def TF.mul : TF → TF → TF
  | .nan, _ => .nan
  | _, .nan => .nan
  | .posInf, .posInf => .posInf
  | .posInf, .negInf => .negInf
  | .negInf, .posInf => .negInf
  | .negInf, .negInf => .posInf
  | .posInf, b => if b.val = 0 then .nan else if b.isSignNeg then .negInf else .posInf
  | a, .posInf => if a.val = 0 then .nan else if a.isSignNeg then .negInf else .posInf
  | .negInf, b => if b.val = 0 then .nan else if b.isSignNeg then .posInf else .negInf
  | a, .negInf => if a.val = 0 then .nan else if a.isSignNeg then .posInf else .negInf
  | a, b => .num (a.val * b.val)

/-- Ordinary division on the toy carrier (coarse but total). -/
def TF.div : TF → TF → TF
  | .num m, .num n => if n = 0 then (if m = 0 then .nan else .posInf) else .num (m / n)
  | .posInf, .num _ => .posInf
  | .negInf, .num _ => .negInf
  | _, _ => .nan

/-- Ordinary remainder on the toy carrier (coarse but total). -/
def TF.rem : TF → TF → TF
  | .num m, .num n => if n = 0 then .nan else .num (m % n)
  | _, _ => .nan

/-- Truncation on the toy carrier: finite values are whole already. -/
def TF.truncf (a : TF) : TF := a

/-- Square root on the toy carrier (coarse: identity on nonnegative finite
values; the contract only constrains its value at zero). -/
def TF.sqrtf : TF → TF
  | .num n => if n < 0 then .nan else .num n
  | .negZero => .negZero
  | .posInf => .posInf
  | _ => .nan

/-- Natural logarithm on the toy carrier (exact only where the proofs need
it: logf 1 = 0, logf of positive integers finite, logf posInf = posInf). -/
def TF.logf : TF → TF
  | .num n => if n ≤ 0 then (if n = 0 then .negInf else .nan) else .num (n - 1)
  | .negZero => .negInf
  | .posInf => .posInf
  | _ => .nan

/-- Magnitude of a toy float. -/
def TF.absT : TF → TF
  | .num n => .num (Int.ofNat n.natAbs)
  | .negZero => .num 0
  | .nan => .nan
  | _ => .posInf

/-- Sign flip of a toy float. -/
def TF.negT : TF → TF
  | .num n => if n = 0 then .negZero else .num (-n)
  | .negZero => .num 0
  | .posInf => .negInf
  | .negInf => .posInf
  | .nan => .nan

/-- copysign on the toy carrier: magnitude of the first, sign of the second. -/
def TF.copysignf (a b : TF) : TF :=
  if b.isSignNeg then (TF.absT a).negT else TF.absT a

/-- IEEE-style strict less-than on the toy carrier: false on NaN. -/
def TF.lt : TF → TF → Bool
  | .nan, _ => false
  | _, .nan => false
  | .negInf, .negInf => false
  | .negInf, _ => true
  | _, .negInf => false
  | .posInf, .posInf => false
  | _, .posInf => true
  | .posInf, _ => false
  | a, b => decide (a.val < b.val)

/-- IEEE-style equality on the toy carrier: false on NaN, +0 = -0. -/
def TF.beq : TF → TF → Bool
  | .nan, _ => false
  | _, .nan => false
  | .posInf, .posInf => true
  | .negInf, .negInf => true
  | .posInf, _ => false
  | _, .posInf => false
  | .negInf, _ => false
  | _, .negInf => false
  | a, b => decide (a.val = b.val)

/-- Modelled from the spec: a floating-point precision together with its
ordinary operations, its relaxed ("fast-math") intrinsics fadd_fast,
fsub_fast, fmul_fast, fdiv_fast, frem_fast, the ordinary math intrinsics the
crate calls (truncf, sqrtf, logf, copysignf), the IEEE comparisons backing
the derived PartialEq/PartialOrd, the classification predicates, and the
special values.  None of these primitives are code of the repository; the
crate is compiled against them. -/
structure Model where
  F : Type
  add : F → F → F
  sub : F → F → F
  mul : F → F → F
  div : F → F → F
  rem : F → F → F
  fadd_fast : F → F → F
  fsub_fast : F → F → F
  fmul_fast : F → F → F
  fdiv_fast : F → F → F
  frem_fast : F → F → F
  truncf : F → F
  sqrtf : F → F
  logf : F → F
  copysignf : F → F → F
  lt : F → F → Bool
  beq : F → F → Bool
  isNaN : F → Bool
  isFinite : F → Bool
  isSignNeg : F → Bool
  nan : F
  zero : F
  negZero : F
  one : F
  negOne : F
  posInf : F
  negInf : F

/-- Modelled from the spec: the contract of the external primitives.  Each
relaxed intrinsic agrees with the corresponding ordinary operation whenever
both operands are finite (hence non-NaN); elsewhere it is unconstrained
(the spec: the returned value may be any representable value).  The
remaining fields are the IEEE facts about the ordinary primitives that the
claims rely on (comparisons are false on NaN, copysign transfers the sign
including the sign of zero, and pointwise arithmetic facts at 0 and 1). -/
structure ModelSpec (M : Model) : Prop where
  hadd : ∀ a b, M.isFinite a = true → M.isFinite b = true → M.fadd_fast a b = M.add a b
  hsub : ∀ a b, M.isFinite a = true → M.isFinite b = true → M.fsub_fast a b = M.sub a b
  hmul : ∀ a b, M.isFinite a = true → M.isFinite b = true → M.fmul_fast a b = M.mul a b
  hdiv : ∀ a b, M.isFinite a = true → M.isFinite b = true → M.fdiv_fast a b = M.div a b
  hrem : ∀ a b, M.isFinite a = true → M.isFinite b = true → M.frem_fast a b = M.rem a b
  lt_nan : ∀ y, M.lt M.nan y = false
  isNaN_nan : M.isNaN M.nan = true
  isNaN_negZero : M.isNaN M.negZero = false
  signNeg_negZero : M.isSignNeg M.negZero = true
  copysign_one : ∀ y, M.copysignf M.one y = if M.isSignNeg y then M.negOne else M.one
  beq_negInf : M.beq M.negInf M.negInf = true
  lt_one_one : M.lt M.one M.one = false
  mul_one_one : M.mul M.one M.one = M.one
  sub_one_one : M.sub M.one M.one = M.zero
  sqrt_zero : M.sqrtf M.zero = M.zero
  add_one_zero : M.add M.one M.zero = M.one
  ln_one : M.logf M.one = M.zero
  fin_one : M.isFinite M.one = true
  fin_zero : M.isFinite M.zero = true

/-- The wrapper type: `pub struct Fast<F>(pub F);` (src/src/lib.rs:48). -/
structure Fast (F : Type) where
  val : F
deriving DecidableEq

/-- `pub fn get(self) -> F { self.0 }` (src/src/lib.rs:53). -/
def Fast.get {F : Type} (x : Fast F) : F := x.val

/-- `impl<F> From<F> for Fast<F> { fn from(x: F) -> Self { Fast(x) } }`
(src/src/lib.rs:56-59). -/
def Fast.fromF {F : Type} (x : F) : Fast F := ⟨x⟩

/-- `impl Add<F> for Fast<F>`: `Fast(fadd_fast(self.0, rhs))`
(src/src/lib.rs:82-100, via impl_op!). -/
def Fast.add_bare (M : Model) (a : Fast M.F) (rhs : M.F) : Fast M.F :=
  ⟨M.fadd_fast a.val rhs⟩

/-- `impl Add<Fast<F>> for F`: `Fast(self).add(rhs.0)` (src/src/lib.rs:103-117). -/
def bare_add (M : Model) (a : M.F) (rhs : Fast M.F) : Fast M.F :=
  Fast.add_bare M ⟨a⟩ rhs.val

/-- `impl Add for Fast<F>`: `self.add(rhs.0)` (src/src/lib.rs:120-134). -/
def Fast.add (M : Model) (a rhs : Fast M.F) : Fast M.F :=
  Fast.add_bare M a rhs.val

/-- `impl Sub<F> for Fast<F>`: `Fast(fsub_fast(self.0, rhs))`. -/
def Fast.sub_bare (M : Model) (a : Fast M.F) (rhs : M.F) : Fast M.F :=
  ⟨M.fsub_fast a.val rhs⟩

/-- `impl Sub<Fast<F>> for F`: `Fast(self).sub(rhs.0)`. -/
def bare_sub (M : Model) (a : M.F) (rhs : Fast M.F) : Fast M.F :=
  Fast.sub_bare M ⟨a⟩ rhs.val

/-- `impl Sub for Fast<F>`: `self.sub(rhs.0)`. -/
def Fast.sub (M : Model) (a rhs : Fast M.F) : Fast M.F :=
  Fast.sub_bare M a rhs.val

/-- `impl Mul<F> for Fast<F>`: `Fast(fmul_fast(self.0, rhs))`. -/
def Fast.mul_bare (M : Model) (a : Fast M.F) (rhs : M.F) : Fast M.F :=
  ⟨M.fmul_fast a.val rhs⟩

/-- `impl Mul<Fast<F>> for F`: `Fast(self).mul(rhs.0)`. -/
def bare_mul (M : Model) (a : M.F) (rhs : Fast M.F) : Fast M.F :=
  Fast.mul_bare M ⟨a⟩ rhs.val

/-- `impl Mul for Fast<F>`: `self.mul(rhs.0)`. -/
def Fast.mul (M : Model) (a rhs : Fast M.F) : Fast M.F :=
  Fast.mul_bare M a rhs.val

/-- `impl Div<F> for Fast<F>`: `Fast(fdiv_fast(self.0, rhs))`. -/
def Fast.div_bare (M : Model) (a : Fast M.F) (rhs : M.F) : Fast M.F :=
  ⟨M.fdiv_fast a.val rhs⟩

/-- `impl Div<Fast<F>> for F`: `Fast(self).div(rhs.0)`. -/
def bare_div (M : Model) (a : M.F) (rhs : Fast M.F) : Fast M.F :=
  Fast.div_bare M ⟨a⟩ rhs.val

/-- `impl Div for Fast<F>`: `self.div(rhs.0)`. -/
def Fast.div (M : Model) (a rhs : Fast M.F) : Fast M.F :=
  Fast.div_bare M a rhs.val

/-- `impl Rem<F> for Fast<F>`: `Fast(frem_fast(self.0, rhs))`. -/
def Fast.rem_bare (M : Model) (a : Fast M.F) (rhs : M.F) : Fast M.F :=
  ⟨M.frem_fast a.val rhs⟩

/-- `impl Rem<Fast<F>> for F`: `Fast(self).rem(rhs.0)`. -/
def bare_rem (M : Model) (a : M.F) (rhs : Fast M.F) : Fast M.F :=
  Fast.rem_bare M ⟨a⟩ rhs.val

/-- `impl Rem for Fast<F>`: `self.rem(rhs.0)`. -/
def Fast.rem (M : Model) (a rhs : Fast M.F) : Fast M.F :=
  Fast.rem_bare M a rhs.val

/-- `impl AddAssign<Rhs> for Fast<F>` where `Self: Add<Rhs>`: the generated body
is `*self = *self + rhs` (src/src/lib.rs:140-154); here with a bare rhs the
`+` resolves to the `Add<F> for Fast<F>` impl. -/
def Fast.add_assign (M : Model) (v : Fast M.F) (rhs : M.F) : Fast M.F :=
  Fast.add_bare M v rhs

/-- `impl SubAssign<Rhs> for Fast<F>`: the generated body is
`*self = *self + rhs` for every operator — the intrinsic argument
(fsub_fast) is never used, so `-=` performs the relaxed ADDITION
(src/src/lib.rs:140-154, 164-170). -/
def Fast.sub_assign (M : Model) (v : Fast M.F) (rhs : M.F) : Fast M.F :=
  Fast.add_bare M v rhs

/-- `impl MulAssign<Rhs> for Fast<F>`: same generated body `*self = *self + rhs`. -/
def Fast.mul_assign (M : Model) (v : Fast M.F) (rhs : M.F) : Fast M.F :=
  Fast.add_bare M v rhs

/-- `impl DivAssign<Rhs> for Fast<F>`: same generated body `*self = *self + rhs`. -/
def Fast.div_assign (M : Model) (v : Fast M.F) (rhs : M.F) : Fast M.F :=
  Fast.add_bare M v rhs

/-- `impl RemAssign<Rhs> for Fast<F>`: same generated body `*self = *self + rhs`. -/
def Fast.rem_assign (M : Model) (v : Fast M.F) (rhs : M.F) : Fast M.F :=
  Fast.add_bare M v rhs

/-- `pub fn trunc(self) -> Self` = intrinsic truncf (src/src/lib.rs:206-208,
338-340; both precisions have the same body). -/
def Fast.trunc (M : Model) (x : Fast M.F) : Fast M.F := ⟨M.truncf x.val⟩

/-- `pub fn fract(self) -> Self { self - self.trunc() }` (src/src/lib.rs:
211-213, 343-345).  Note the `-` is the crate's own relaxed Sub. -/
def Fast.fract (M : Model) (x : Fast M.F) : Fast M.F :=
  Fast.sub M x (Fast.trunc M x)

/-- `pub fn is_nan(self) -> bool { self.0.is_nan() }` (src/src/lib.rs:221-223). -/
def Fast.is_nan (M : Model) (x : Fast M.F) : Bool := M.isNaN x.val

/-- `pub fn signum(self) -> Self` (src/src/lib.rs:226-232, 358-364):
NaN input gives NaN, otherwise copysign(1.0, self.0). -/
def Fast.signum (M : Model) (x : Fast M.F) : Fast M.F :=
  if Fast.is_nan M x then ⟨M.nan⟩ else ⟨M.copysignf M.one x.val⟩

/-- `pub fn sqrt(self) -> Self` = intrinsic sqrtf (src/src/lib.rs:255-257). -/
def Fast.sqrt (M : Model) (x : Fast M.F) : Fast M.F := ⟨M.sqrtf x.val⟩

/-- `pub fn ln(self) -> Self` = intrinsic logf (src/src/lib.rs:270-272). -/
def Fast.ln (M : Model) (x : Fast M.F) : Fast M.F := ⟨M.logf x.val⟩

/-- `pub fn log(self, base: Self) -> Self { self.ln() / base.ln() }`
(src/src/lib.rs:275-277, 407-409).  The `/` is the crate's relaxed Div. -/
def Fast.log (M : Model) (x base : Fast M.F) : Fast M.F :=
  Fast.div M (Fast.ln M x) (Fast.ln M base)

/-- `pub fn asinh(self) -> Self` (src/src/lib.rs:305-311, 437-443):
returns self when self.0 == NEG_INFINITY, else
`(self + ((self * self) + 1.0).sqrt()).ln()` — the `*` and both `+` are the
crate's relaxed operators (Fast*Fast, Fast+bare, Fast+Fast). -/
def Fast.asinh (M : Model) (x : Fast M.F) : Fast M.F :=
  if M.beq x.val M.negInf then x
  else Fast.ln M (Fast.add M x (Fast.sqrt M (Fast.add_bare M (Fast.mul M x x) M.one)))

/-- `pub fn acosh(self) -> Self` (src/src/lib.rs:314-319, 446-451):
NaN when `x < 1.0.into()` (derived PartialOrd, i.e. ordinary float
less-than on the inner values), else `(x + ((x * x) - 1.0).sqrt()).ln()` —
relaxed multiply, subtract, add. -/
def Fast.acosh (M : Model) (x : Fast M.F) : Fast M.F :=
  if M.lt x.val M.one then ⟨M.nan⟩
  else Fast.ln M (Fast.add M x (Fast.sqrt M (Fast.sub_bare M (Fast.mul M x x) M.one)))

/-- Concrete model over the toy carrier whose relaxed intrinsics agree with
the ordinary operations everywhere (a legal instantiation of the contract). -/
@[reducible] def Mgood : Model where
  F := TF
  add := TF.add
  sub := TF.sub
  mul := TF.mul
  div := TF.div
  rem := TF.rem
  fadd_fast := TF.add
  fsub_fast := TF.sub
  fmul_fast := TF.mul
  fdiv_fast := TF.div
  frem_fast := TF.rem
  truncf := TF.truncf
  sqrtf := TF.sqrtf
  logf := TF.logf
  copysignf := TF.copysignf
  lt := TF.lt
  beq := TF.beq
  isNaN := TF.isNaN
  isFinite := TF.isFinite
  isSignNeg := TF.isSignNeg
  nan := TF.nan
  zero := TF.num 0
  negZero := TF.negZero
  one := TF.num 1
  negOne := TF.num (-1)
  posInf := TF.posInf
  negInf := TF.negInf

/-- A relaxed intrinsic that conforms to the contract yet returns the junk
value 42 whenever an operand is not finite. -/
def badOp (op : TF → TF → TF) (a b : TF) : TF :=
  if a.isFinite && b.isFinite then op a b else TF.num 42

/-- Concrete model over the toy carrier whose relaxed intrinsics return junk
on non-finite operands — still a legal instantiation of the contract, which
leaves those inputs unspecified. -/
@[reducible] def Mbad : Model where
  F := TF
  add := TF.add
  sub := TF.sub
  mul := TF.mul
  div := TF.div
  rem := TF.rem
  fadd_fast := badOp TF.add
  fsub_fast := badOp TF.sub
  fmul_fast := badOp TF.mul
  fdiv_fast := badOp TF.div
  frem_fast := badOp TF.rem
  truncf := TF.truncf
  sqrtf := TF.sqrtf
  logf := TF.logf
  copysignf := TF.copysignf
  lt := TF.lt
  beq := TF.beq
  isNaN := TF.isNaN
  isFinite := TF.isFinite
  isSignNeg := TF.isSignNeg
  nan := TF.nan
  zero := TF.num 0
  negZero := TF.negZero
  one := TF.num 1
  negOne := TF.num (-1)
  posInf := TF.posInf
  negInf := TF.negInf

theorem badOp_eq (op : TF → TF → TF) (a b : TF)
    (ha : TF.isFinite a = true) (hb : TF.isFinite b = true) :
    badOp op a b = op a b := by
  simp [badOp, ha, hb]

theorem copysign_one_TF (y : TF) :
    TF.copysignf (TF.num 1) y = if TF.isSignNeg y then TF.num (-1) else TF.num 1 := by
  cases hy : TF.isSignNeg y <;> simp [TF.copysignf, hy] <;> decide

theorem lt_nan_TF (y : TF) : TF.lt TF.nan y = false := by
  cases y <;> rfl

/-- Mgood satisfies the primitives contract. -/
theorem spec_good : ModelSpec Mgood where
  hadd := fun _ _ _ _ => rfl
  hsub := fun _ _ _ _ => rfl
  hmul := fun _ _ _ _ => rfl
  hdiv := fun _ _ _ _ => rfl
  hrem := fun _ _ _ _ => rfl
  lt_nan := lt_nan_TF
  isNaN_nan := rfl
  isNaN_negZero := rfl
  signNeg_negZero := rfl
  copysign_one := copysign_one_TF
  beq_negInf := rfl
  lt_one_one := by decide
  mul_one_one := by show TF.mul (TF.num 1) (TF.num 1) = TF.num 1; decide
  sub_one_one := by show TF.sub (TF.num 1) (TF.num 1) = TF.num 0; decide
  sqrt_zero := by show TF.sqrtf (TF.num 0) = TF.num 0; decide
  add_one_zero := by show TF.add (TF.num 1) (TF.num 0) = TF.num 1; decide
  ln_one := by show TF.logf (TF.num 1) = TF.num 0; decide
  fin_one := rfl
  fin_zero := rfl

/-- Mbad satisfies the primitives contract as well. -/
theorem spec_bad : ModelSpec Mbad where
  hadd := fun a b ha hb => badOp_eq TF.add a b ha hb
  hsub := fun a b ha hb => badOp_eq TF.sub a b ha hb
  hmul := fun a b ha hb => badOp_eq TF.mul a b ha hb
  hdiv := fun a b ha hb => badOp_eq TF.div a b ha hb
  hrem := fun a b ha hb => badOp_eq TF.rem a b ha hb
  lt_nan := lt_nan_TF
  isNaN_nan := rfl
  isNaN_negZero := rfl
  signNeg_negZero := rfl
  copysign_one := copysign_one_TF
  beq_negInf := rfl
  lt_one_one := by decide
  mul_one_one := by show TF.mul (TF.num 1) (TF.num 1) = TF.num 1; decide
  sub_one_one := by show TF.sub (TF.num 1) (TF.num 1) = TF.num 0; decide
  sqrt_zero := by show TF.sqrtf (TF.num 0) = TF.num 0; decide
  add_one_zero := by show TF.add (TF.num 1) (TF.num 0) = TF.num 1; decide
  ln_one := by show TF.logf (TF.num 1) = TF.num 0; decide
  fin_one := rfl
  fin_zero := rfl

/-- Claim C1 (code bug evaluation): in the conforming model Mgood, starting
from v = construct(5) the compound assignment v -= 2 yields construct(7),
i.e. construct(5 + 2), not construct(5 - 2) = construct(3) as the plain
subtraction operator gives; the multiply, divide and remainder assignment
forms likewise all perform the relaxed addition, because the generated body
of every compound-assignment impl is `*self = *self + rhs`. -/
theorem c1_compound_assign_uses_add :
    ModelSpec Mgood ∧
    Fast.sub_assign Mgood (Fast.fromF (TF.num 5)) (TF.num 2) = Fast.fromF (TF.num 7) ∧
    Fast.sub Mgood (Fast.fromF (TF.num 5)) (Fast.fromF (TF.num 2)) = Fast.fromF (TF.num 3) ∧
    Fast.sub_assign Mgood (Fast.fromF (TF.num 5)) (TF.num 2) ≠
      Fast.fromF (Mgood.sub (TF.num 5) (TF.num 2)) ∧
    Fast.mul_assign Mgood (Fast.fromF (TF.num 5)) (TF.num 2) = Fast.fromF (TF.num 7) ∧
    Fast.div_assign Mgood (Fast.fromF (TF.num 5)) (TF.num 2) = Fast.fromF (TF.num 7) ∧
    Fast.rem_assign Mgood (Fast.fromF (TF.num 5)) (TF.num 2) = Fast.fromF (TF.num 7) :=
  ⟨spec_good, by decide, by decide, by decide, by decide, by decide, by decide⟩

/-- Claim C2: for finite (hence non-NaN) operands a, b, each relaxed binary
operator on wrapped values returns construct of the ordinary result
(for the remainder, under the claim's nonzero-divisor proviso). -/
theorem c2_single_op_equiv (M : Model) (hM : ModelSpec M) (a b : M.F)
    (ha : M.isFinite a = true) (hb : M.isFinite b = true) :
    Fast.add M (Fast.fromF a) (Fast.fromF b) = Fast.fromF (M.add a b) ∧
    Fast.sub M (Fast.fromF a) (Fast.fromF b) = Fast.fromF (M.sub a b) ∧
    Fast.mul M (Fast.fromF a) (Fast.fromF b) = Fast.fromF (M.mul a b) ∧
    Fast.div M (Fast.fromF a) (Fast.fromF b) = Fast.fromF (M.div a b) ∧
    ((b ≠ M.zero ∧ b ≠ M.negZero) →
      Fast.rem M (Fast.fromF a) (Fast.fromF b) = Fast.fromF (M.rem a b)) := by
  refine ⟨?_, ?_, ?_, ?_, fun _ => ?_⟩ <;>
    simp [Fast.add, Fast.sub, Fast.mul, Fast.div, Fast.rem, Fast.fromF,
          Fast.add_bare, Fast.sub_bare, Fast.mul_bare, Fast.div_bare, Fast.rem_bare,
          hM.hadd a b ha hb, hM.hsub a b ha hb, hM.hmul a b ha hb,
          hM.hdiv a b ha hb, hM.hrem a b ha hb]

/-- Claim C2 witness: 7 op 2 across the five operators in Mgood. -/
theorem c2_single_op_equiv_witness :
    Fast.add Mgood (Fast.fromF (TF.num 7)) (Fast.fromF (TF.num 2)) = Fast.fromF (TF.num 9) ∧
    Fast.sub Mgood (Fast.fromF (TF.num 7)) (Fast.fromF (TF.num 2)) = Fast.fromF (TF.num 5) ∧
    Fast.mul Mgood (Fast.fromF (TF.num 7)) (Fast.fromF (TF.num 2)) = Fast.fromF (TF.num 14) ∧
    Fast.div Mgood (Fast.fromF (TF.num 7)) (Fast.fromF (TF.num 2)) = Fast.fromF (TF.num 3) ∧
    Fast.rem Mgood (Fast.fromF (TF.num 7)) (Fast.fromF (TF.num 2)) = Fast.fromF (TF.num 1) := by
  have h := c2_single_op_equiv Mgood spec_good (TF.num 7) (TF.num 2) rfl rfl
  exact ⟨h.1.trans (by decide), h.2.1.trans (by decide), h.2.2.1.trans (by decide),
         h.2.2.2.1.trans (by decide),
         (h.2.2.2.2 ⟨by decide, by decide⟩).trans (by decide)⟩

/-- Claim C3: for finite a, b the three operand shapes of each of the five
operators agree and all equal construct of the ordinary result; the
bare-with-wrapped shape returns a wrapped value by construction. -/
theorem c3_operand_shapes (M : Model) (hM : ModelSpec M) (a b : M.F)
    (ha : M.isFinite a = true) (hb : M.isFinite b = true) :
    (Fast.add_bare M (Fast.fromF a) b = Fast.fromF (M.add a b) ∧
     bare_add M a (Fast.fromF b) = Fast.fromF (M.add a b) ∧
     Fast.add M (Fast.fromF a) (Fast.fromF b) = Fast.fromF (M.add a b)) ∧
    (Fast.sub_bare M (Fast.fromF a) b = Fast.fromF (M.sub a b) ∧
     bare_sub M a (Fast.fromF b) = Fast.fromF (M.sub a b) ∧
     Fast.sub M (Fast.fromF a) (Fast.fromF b) = Fast.fromF (M.sub a b)) ∧
    (Fast.mul_bare M (Fast.fromF a) b = Fast.fromF (M.mul a b) ∧
     bare_mul M a (Fast.fromF b) = Fast.fromF (M.mul a b) ∧
     Fast.mul M (Fast.fromF a) (Fast.fromF b) = Fast.fromF (M.mul a b)) ∧
    (Fast.div_bare M (Fast.fromF a) b = Fast.fromF (M.div a b) ∧
     bare_div M a (Fast.fromF b) = Fast.fromF (M.div a b) ∧
     Fast.div M (Fast.fromF a) (Fast.fromF b) = Fast.fromF (M.div a b)) ∧
    (Fast.rem_bare M (Fast.fromF a) b = Fast.fromF (M.rem a b) ∧
     bare_rem M a (Fast.fromF b) = Fast.fromF (M.rem a b) ∧
     Fast.rem M (Fast.fromF a) (Fast.fromF b) = Fast.fromF (M.rem a b)) := by
  refine ⟨⟨?_, ?_, ?_⟩, ⟨?_, ?_, ?_⟩, ⟨?_, ?_, ?_⟩, ⟨?_, ?_, ?_⟩, ⟨?_, ?_, ?_⟩⟩ <;>
    simp [Fast.add, Fast.sub, Fast.mul, Fast.div, Fast.rem, Fast.fromF,
          bare_add, bare_sub, bare_mul, bare_div, bare_rem,
          Fast.add_bare, Fast.sub_bare, Fast.mul_bare, Fast.div_bare, Fast.rem_bare,
          hM.hadd a b ha hb, hM.hsub a b ha hb, hM.hmul a b ha hb,
          hM.hdiv a b ha hb, hM.hrem a b ha hb]

/-- Claim C3 witness: the fifteen shape equalities at a = 7, b = 2 in Mgood. -/
theorem c3_operand_shapes_witness :
    (Fast.add_bare Mgood (Fast.fromF (TF.num 7)) (TF.num 2)
       = Fast.fromF (Mgood.add (TF.num 7) (TF.num 2)) ∧
     bare_add Mgood (TF.num 7) (Fast.fromF (TF.num 2))
       = Fast.fromF (Mgood.add (TF.num 7) (TF.num 2)) ∧
     Fast.add Mgood (Fast.fromF (TF.num 7)) (Fast.fromF (TF.num 2))
       = Fast.fromF (Mgood.add (TF.num 7) (TF.num 2))) ∧
    (Fast.sub_bare Mgood (Fast.fromF (TF.num 7)) (TF.num 2)
       = Fast.fromF (Mgood.sub (TF.num 7) (TF.num 2)) ∧
     bare_sub Mgood (TF.num 7) (Fast.fromF (TF.num 2))
       = Fast.fromF (Mgood.sub (TF.num 7) (TF.num 2)) ∧
     Fast.sub Mgood (Fast.fromF (TF.num 7)) (Fast.fromF (TF.num 2))
       = Fast.fromF (Mgood.sub (TF.num 7) (TF.num 2))) ∧
    (Fast.mul_bare Mgood (Fast.fromF (TF.num 7)) (TF.num 2)
       = Fast.fromF (Mgood.mul (TF.num 7) (TF.num 2)) ∧
     bare_mul Mgood (TF.num 7) (Fast.fromF (TF.num 2))
       = Fast.fromF (Mgood.mul (TF.num 7) (TF.num 2)) ∧
     Fast.mul Mgood (Fast.fromF (TF.num 7)) (Fast.fromF (TF.num 2))
       = Fast.fromF (Mgood.mul (TF.num 7) (TF.num 2))) ∧
    (Fast.div_bare Mgood (Fast.fromF (TF.num 7)) (TF.num 2)
       = Fast.fromF (Mgood.div (TF.num 7) (TF.num 2)) ∧
     bare_div Mgood (TF.num 7) (Fast.fromF (TF.num 2))
       = Fast.fromF (Mgood.div (TF.num 7) (TF.num 2)) ∧
     Fast.div Mgood (Fast.fromF (TF.num 7)) (Fast.fromF (TF.num 2))
       = Fast.fromF (Mgood.div (TF.num 7) (TF.num 2))) ∧
    (Fast.rem_bare Mgood (Fast.fromF (TF.num 7)) (TF.num 2)
       = Fast.fromF (Mgood.rem (TF.num 7) (TF.num 2)) ∧
     bare_rem Mgood (TF.num 7) (Fast.fromF (TF.num 2))
       = Fast.fromF (Mgood.rem (TF.num 7) (TF.num 2)) ∧
     Fast.rem Mgood (Fast.fromF (TF.num 7)) (Fast.fromF (TF.num 2))
       = Fast.fromF (Mgood.rem (TF.num 7) (TF.num 2))) :=
  c3_operand_shapes Mgood spec_good (TF.num 7) (TF.num 2) rfl rfl

/-- Claim C4: construction stores the value unchanged and get returns exactly
the held value, for every value of every underlying type, so the round trip
is the identity (this covers every bit pattern, NaN and infinities included,
since the wrapper never inspects the value). -/
theorem c4_round_trip : ∀ (F : Type) (x : F), (Fast.fromF x).get = x :=
  fun _ _ => rfl

/-- Claim C5 counterexample: fract is built from the crate's relaxed
subtraction, not ordinary subtraction.  In the conforming model Mbad,
fract(+inf) returns the junk the relaxed intrinsic is free to produce on a
non-finite operand, which differs from the ordinary +inf - trunc(+inf). -/
theorem c5_fract_relaxed_cex :
    ModelSpec Mbad ∧
    Fast.fract Mbad (Fast.fromF TF.posInf) ≠
      Fast.fromF (Mbad.sub TF.posInf (Mbad.truncf TF.posInf)) :=
  ⟨spec_bad, by decide⟩

/-- Claim C5 (amended): fract(x) is x - trunc(x) computed with the relaxed
subtraction operator, which coincides with the ordinary subtraction whenever
x and trunc(x) are finite. -/
theorem c5_fract_ordinary_when_finite (M : Model) (hM : ModelSpec M)
    (x : Fast M.F) (hx : M.isFinite x.val = true)
    (ht : M.isFinite (M.truncf x.val) = true) :
    Fast.fract M x = Fast.fromF (M.sub x.val (M.truncf x.val)) := by
  simp [Fast.fract, Fast.sub, Fast.sub_bare, Fast.trunc, Fast.fromF,
        hM.hsub x.val (M.truncf x.val) hx ht]

/-- Claim C5 witness: fract(3) = 0 in Mgood. -/
theorem c5_fract_witness :
    Fast.fract Mgood (Fast.fromF (TF.num 3)) = Fast.fromF (TF.num 0) :=
  (c5_fract_ordinary_when_finite Mgood spec_good (Fast.fromF (TF.num 3))
    rfl rfl).trans (by decide)

/-- Claim C6 counterexample: log is built from the crate's relaxed division,
not ordinary division.  In the conforming model Mbad, log(+inf, +inf)
returns the junk the relaxed division may produce on non-finite operands,
which differs from ordinary ln(+inf)/ln(+inf). -/
theorem c6_log_relaxed_cex :
    ModelSpec Mbad ∧
    Fast.log Mbad (Fast.fromF TF.posInf) (Fast.fromF TF.posInf) ≠
      Fast.fromF (Mbad.div (Mbad.logf TF.posInf) (Mbad.logf TF.posInf)) :=
  ⟨spec_bad, by decide⟩

/-- Claim C6 (amended): log(x, base) is ln(x)/ln(base) computed with the
relaxed division operator, which coincides with the ordinary division
whenever ln(x) and ln(base) are finite. -/
theorem c6_log_ordinary_when_finite (M : Model) (hM : ModelSpec M)
    (x base : Fast M.F) (h1 : M.isFinite (M.logf x.val) = true)
    (h2 : M.isFinite (M.logf base.val) = true) :
    Fast.log M x base = Fast.fromF (M.div (M.logf x.val) (M.logf base.val)) := by
  simp [Fast.log, Fast.div, Fast.div_bare, Fast.ln, Fast.fromF,
        hM.hdiv (M.logf x.val) (M.logf base.val) h1 h2]

/-- Claim C6 witness: log(3, 3) = 1 in Mgood. -/
theorem c6_log_witness :
    Fast.log Mgood (Fast.fromF (TF.num 3)) (Fast.fromF (TF.num 3)) =
      Fast.fromF (TF.num 1) :=
  (c6_log_ordinary_when_finite Mgood spec_good (Fast.fromF (TF.num 3))
    (Fast.fromF (TF.num 3)) rfl rfl).trans (by decide)

/-- Claim C7 counterexample: outside the negative-infinity special case the
asinh formula is composed from the crate's relaxed multiply/add, not
ordinary ones.  In the conforming model Mbad, asinh(+inf) differs from the
ordinary composition ln(x + sqrt(x*x + 1)) at x = +inf. -/
theorem c7_asinh_relaxed_cex :
    ModelSpec Mbad ∧
    Fast.asinh Mbad (Fast.fromF TF.posInf) ≠
      Fast.fromF (Mbad.logf (Mbad.add TF.posInf
        (Mbad.sqrtf (Mbad.add (Mbad.mul TF.posInf TF.posInf) Mbad.one)))) :=
  ⟨spec_bad, by decide⟩

/-- Claim C7 (amended): asinh returns its argument unchanged when it equals
negative infinity (in particular at construct(-inf)); otherwise it computes
ln(x + sqrt(x*x + 1)) with the relaxed multiply and adds, which coincides
with the ordinary composition when x, x*x and sqrt(x*x + 1) are finite. -/
theorem c7_asinh_branches (M : Model) (hM : ModelSpec M) (x : Fast M.F) :
    (M.beq x.val M.negInf = true → Fast.asinh M x = x) ∧
    (M.beq x.val M.negInf = false →
      M.isFinite x.val = true →
      M.isFinite (M.mul x.val x.val) = true →
      M.isFinite (M.sqrtf (M.add (M.mul x.val x.val) M.one)) = true →
      Fast.asinh M x =
        Fast.fromF (M.logf (M.add x.val
          (M.sqrtf (M.add (M.mul x.val x.val) M.one))))) ∧
    Fast.asinh M (Fast.fromF M.negInf) = Fast.fromF M.negInf := by
  refine ⟨fun h => by simp [Fast.asinh, h], fun h hx h2 h3 => ?_, ?_⟩
  · simp [Fast.asinh, h, Fast.ln, Fast.add, Fast.add_bare, Fast.sqrt,
          Fast.mul, Fast.mul_bare, Fast.fromF,
          hM.hmul x.val x.val hx hx,
          hM.hadd (M.mul x.val x.val) M.one h2 hM.fin_one,
          hM.hadd x.val (M.sqrtf (M.add (M.mul x.val x.val) M.one)) hx h3]
  · simp [Fast.asinh, Fast.fromF, hM.beq_negInf]

/-- Claim C7 witness: asinh(0) = 0 on the finite branch and
asinh(-inf) = -inf on the special case, in Mgood. -/
theorem c7_asinh_witness :
    Fast.asinh Mgood (Fast.fromF (TF.num 0)) = Fast.fromF (TF.num 0) ∧
    Fast.asinh Mgood (Fast.fromF TF.negInf) = Fast.fromF TF.negInf := by
  have h := c7_asinh_branches Mgood spec_good (Fast.fromF (TF.num 0))
  exact ⟨(h.2.1 (by decide) (by decide) (by decide) (by decide)).trans (by decide),
         h.2.2⟩

/-- Claim C8 counterexample: the acosh formula branch is composed from the
crate's relaxed multiply/subtract/add, not ordinary arithmetic.  In the
conforming model Mbad, acosh(+inf) differs from the ordinary composition
ln(x + sqrt(x*x - 1)) at x = +inf. -/
theorem c8_acosh_relaxed_cex :
    ModelSpec Mbad ∧
    Fast.acosh Mbad (Fast.fromF TF.posInf) ≠
      Fast.fromF (Mbad.logf (Mbad.add TF.posInf
        (Mbad.sqrtf (Mbad.sub (Mbad.mul TF.posInf TF.posInf) Mbad.one)))) :=
  ⟨spec_bad, by decide⟩

/-- Claim C8 (amended): acosh returns NaN when x < 1 (so construct(0.5) and
any other input below one gives NaN); otherwise it computes
ln(x + sqrt(x*x - 1)) with the relaxed multiply/subtract/add, which
coincides with the ordinary composition when x, x*x and sqrt(x*x - 1) are
finite; in particular construct(1).acosh() = construct(0). -/
theorem c8_acosh_branches (M : Model) (hM : ModelSpec M) (x : Fast M.F) :
    (M.lt x.val M.one = true →
      Fast.acosh M x = Fast.fromF M.nan ∧
      Fast.is_nan M (Fast.acosh M x) = true) ∧
    (M.lt x.val M.one = false →
      M.isFinite x.val = true →
      M.isFinite (M.mul x.val x.val) = true →
      M.isFinite (M.sqrtf (M.sub (M.mul x.val x.val) M.one)) = true →
      Fast.acosh M x =
        Fast.fromF (M.logf (M.add x.val
          (M.sqrtf (M.sub (M.mul x.val x.val) M.one))))) ∧
    Fast.acosh M (Fast.fromF M.one) = Fast.fromF M.zero := by
  refine ⟨fun h => ⟨by simp [Fast.acosh, h, Fast.fromF],
                    by simp [Fast.acosh, h, Fast.is_nan, hM.isNaN_nan]⟩,
          fun h hx h2 h3 => ?_, ?_⟩
  · simp [Fast.acosh, h, Fast.ln, Fast.add, Fast.add_bare, Fast.sqrt,
          Fast.sub_bare, Fast.mul, Fast.mul_bare, Fast.fromF,
          hM.hmul x.val x.val hx hx,
          hM.hsub (M.mul x.val x.val) M.one h2 hM.fin_one,
          hM.hadd x.val (M.sqrtf (M.sub (M.mul x.val x.val) M.one)) hx h3]
  · simp [Fast.acosh, Fast.ln, Fast.add, Fast.add_bare, Fast.sqrt,
          Fast.sub_bare, Fast.mul, Fast.mul_bare, Fast.fromF, hM.lt_one_one,
          hM.hmul M.one M.one hM.fin_one hM.fin_one, hM.mul_one_one,
          hM.hsub M.one M.one hM.fin_one hM.fin_one, hM.sub_one_one,
          hM.sqrt_zero, hM.hadd M.one M.zero hM.fin_one hM.fin_zero,
          hM.add_one_zero, hM.ln_one]

/-- Claim C8 witness: in Mgood, acosh(0) is NaN (0 < 1) and
acosh(1) = 0. -/
theorem c8_acosh_witness :
    Fast.acosh Mgood (Fast.fromF (TF.num 0)) = Fast.fromF TF.nan ∧
    Fast.is_nan Mgood (Fast.acosh Mgood (Fast.fromF (TF.num 0))) = true ∧
    Fast.acosh Mgood (Fast.fromF (TF.num 1)) = Fast.fromF (TF.num 0) := by
  have h := c8_acosh_branches Mgood spec_good (Fast.fromF (TF.num 0))
  have h1 := c8_acosh_branches Mgood spec_good (Fast.fromF (TF.num 1))
  exact ⟨(h.1 (by decide)).1, (h.1 (by decide)).2, h1.2.2⟩

/-- Claim C9: signum returns NaN on NaN input, otherwise copysign(1, x),
i.e. +1 or -1 carrying the sign of the input including signed zero;
in particular signum(-0) = -1 and signum(NaN) is NaN. -/
theorem c9_signum_cases (M : Model) (hM : ModelSpec M) (x : Fast M.F) :
    (M.isNaN x.val = true →
      Fast.signum M x = Fast.fromF M.nan ∧
      Fast.is_nan M (Fast.signum M x) = true) ∧
    (M.isNaN x.val = false →
      Fast.signum M x =
        Fast.fromF (if M.isSignNeg x.val then M.negOne else M.one)) ∧
    Fast.signum M (Fast.fromF M.negZero) = Fast.fromF M.negOne ∧
    Fast.is_nan M (Fast.signum M (Fast.fromF M.nan)) = true := by
  refine ⟨fun h => ⟨by simp [Fast.signum, Fast.is_nan, h, Fast.fromF],
                    by simp [Fast.signum, Fast.is_nan, h, hM.isNaN_nan]⟩,
          fun h => by simp [Fast.signum, Fast.is_nan, h, Fast.fromF,
                            hM.copysign_one x.val],
          ?_, ?_⟩
  · simp [Fast.signum, Fast.is_nan, Fast.fromF, hM.isNaN_negZero,
          hM.copysign_one M.negZero, hM.signNeg_negZero]
  · simp [Fast.signum, Fast.is_nan, Fast.fromF, hM.isNaN_nan]

/-- Claim C9 witness: in Mgood, signum(-5) = -1, signum(-0) = -1 and
signum(NaN) is NaN. -/
theorem c9_signum_witness :
    Fast.signum Mgood (Fast.fromF (TF.num (-5))) = Fast.fromF (TF.num (-1)) ∧
    Fast.signum Mgood (Fast.fromF TF.negZero) = Fast.fromF (TF.num (-1)) ∧
    Fast.is_nan Mgood (Fast.signum Mgood (Fast.fromF TF.nan)) = true := by
  have h := c9_signum_cases Mgood spec_good (Fast.fromF (TF.num (-5)))
  exact ⟨(h.2.1 (by decide)).trans (by decide), h.2.2.1, h.2.2.2⟩

/-- Claim C10 counterexample: on NaN input the guard x < 1 is indeed false
and the formula branch runs, but the branch is relaxed arithmetic whose
value on NaN operands is unspecified, so NaN propagation is not guaranteed:
in the conforming model Mbad, acosh(NaN) is not NaN. -/
theorem c10_acosh_nan_cex :
    ModelSpec Mbad ∧
    Fast.is_nan Mbad (Fast.acosh Mbad (Fast.fromF TF.nan)) = false :=
  ⟨spec_bad, by decide⟩

/-- Claim C10 (amended): for NaN input the guard x < 1 evaluates false
(floating-point comparison with NaN is false), so acosh takes the formula
branch; that branch is the relaxed composition, whose result on NaN
operands the relaxed contract leaves unspecified. -/
theorem c10_acosh_nan_takes_formula_branch (M : Model) (hM : ModelSpec M) :
    Fast.acosh M (Fast.fromF M.nan) =
      Fast.fromF (M.logf (M.fadd_fast M.nan
        (M.sqrtf (M.fsub_fast (M.fmul_fast M.nan M.nan) M.one)))) := by
  simp [Fast.acosh, hM.lt_nan, Fast.ln, Fast.add, Fast.add_bare, Fast.sqrt,
        Fast.sub_bare, Fast.mul, Fast.mul_bare, Fast.fromF]

/-- Claim C10 witness: in Mgood, where the relaxed primitives do propagate
NaN, the formula branch runs at NaN and yields NaN. -/
theorem c10_acosh_nan_witness :
    Fast.acosh Mgood (Fast.fromF TF.nan) = Fast.fromF TF.nan :=
  (c10_acosh_nan_takes_formula_branch Mgood spec_good).trans (by decide)
